import Mathlib

/-!
Shallow embedding of the document-grounded chat retrieval component of the
cement-plant AI backend (files `chatbot-api-pinecone.js` and
`pinecone-client.js`).  External managed services (the Gemini generative
model, the Gemini embedding model and the Pinecone vector index) are
modelled by oracles carried in an `Env` record; the Pinecone index contents
and the two in-memory fallback maps are explicit state.  All definitions
are executable.
-/

namespace CementChat

/-! ## String containment (JS `String.prototype.includes`) -/

/-- Proposition that `pat` occurs as a contiguous substring of `s`
(the semantics of JS `s.includes(pat)`). -/
def strContains (s pat : String) : Prop :=
  pat.data <:+: s.data

instance (s pat : String) : Decidable (strContains s pat) :=
  List.decidableInfix pat.data s.data

/-- Boolean form of `strContains`, used where the JS code branches on
`message.includes('quota')`. -/
def strContainsB (s pat : String) : Bool :=
  decide (strContains s pat)

/-- Proposition that `p` is a prefix of `s` (JS `s.startsWith(p)`). -/
def strStarts (s p : String) : Prop :=
  p.data <+: s.data

/-- JS `String.prototype.trim()`: strip leading and trailing whitespace
(modelled over the character list so it is kernel-computable). -/
def jsTrim (s : String) : String :=
  ⟨(((s.data.dropWhile Char.isWhitespace).reverse.dropWhile Char.isWhitespace).reverse)⟩

/-! ## UTF-8 decoding (JS `Buffer.prototype.toString('utf-8')`)

Node decodes the raw bytes as UTF-8, emitting U+FFFD for malformed
sequences.  We model the decoder explicitly over `List UInt8`; ASCII and
all well-formed sequences decode exactly as Node does. -/

/-- The replacement character U+FFFD emitted for malformed byte sequences. -/
def replChar : Char := Char.ofNat 0xFFFD

/-- Whether a byte is a UTF-8 continuation byte (`10xxxxxx`). -/
def isCont (b : UInt8) : Bool :=
  0x80 ≤ b.toNat && b.toNat < 0xC0

/-- Decode a UTF-8 byte list into characters, one scalar (or replacement
character) at a time. -/
def utf8DecodeLoop : List UInt8 → List Char
  | [] => []
  | b0 :: tail =>
    if b0.toNat < 0x80 then
      Char.ofNat b0.toNat :: utf8DecodeLoop tail
    else if b0.toNat < 0xC2 then
      -- stray continuation byte, or overlong lead 0xC0/0xC1
      replChar :: utf8DecodeLoop tail
    else if b0.toNat < 0xE0 then
      match tail with
      | [] => [replChar]
      | b1 :: tail1 =>
        if isCont b1 then
          Char.ofNat (((b0.toNat - 0xC0) <<< 6) + (b1.toNat - 0x80)) :: utf8DecodeLoop tail1
        else
          replChar :: utf8DecodeLoop (b1 :: tail1)
    else if b0.toNat < 0xF0 then
      match tail with
      | [] => [replChar]
      | [_] => [replChar, replChar]
      | b1 :: b2 :: tail2 =>
        if isCont b1 && isCont b2 then
          let v := ((b0.toNat - 0xE0) <<< 12) + ((b1.toNat - 0x80) <<< 6) + (b2.toNat - 0x80)
          if v < 0x800 ∨ (0xD800 ≤ v ∧ v < 0xE000) then
            replChar :: utf8DecodeLoop tail2
          else
            Char.ofNat v :: utf8DecodeLoop tail2
        else
          replChar :: utf8DecodeLoop (b1 :: b2 :: tail2)
    else if b0.toNat < 0xF5 then
      match tail with
      | [] => [replChar]
      | [_] => [replChar, replChar]
      | [_, _] => [replChar, replChar, replChar]
      | b1 :: b2 :: b3 :: tail3 =>
        if isCont b1 && isCont b2 && isCont b3 then
          let v := ((b0.toNat - 0xF0) <<< 18) + ((b1.toNat - 0x80) <<< 12) +
            ((b2.toNat - 0x80) <<< 6) + (b3.toNat - 0x80)
          if v < 0x10000 ∨ 0x110000 ≤ v then
            replChar :: utf8DecodeLoop tail3
          else
            Char.ofNat v :: utf8DecodeLoop tail3
        else
          replChar :: utf8DecodeLoop (b1 :: b2 :: b3 :: tail3)
    else
      replChar :: utf8DecodeLoop tail

/-- JS `buffer.toString('utf-8')`: decode raw bytes into a string. -/
def utf8Decode (bs : List UInt8) : String :=
  ⟨utf8DecodeLoop bs⟩

/-- Helper for building test byte buffers from ASCII strings. -/
def asciiBytes (s : String) : List UInt8 :=
  s.data.map (fun c => UInt8.ofNat c.toNat)

/-! ## Data model -/

/-- Upload-time metadata passed by `processAndStoreFile` to
`pinecone.storeDocument` (`{filename, mimetype, size}`). -/
structure UploadMeta where
  filename : String
  mimetype : String
  size : Nat
deriving Repr, DecidableEq

/-- Metadata payload of a Pinecone vector record, as assembled by
`storeDocument`: the owning session id, the (truncated) content, the
upload metadata, and a server-side timestamp. -/
structure VectorMeta where
  sessionId : String
  content : String
  filename : String
  mimetype : String
  size : Nat
  timestamp : Nat
deriving Repr, DecidableEq

/-- A vector record in the Pinecone index, keyed by document id.  The
numeric embedding values are opaque to every claim (similarity is an
oracle), so only the id and metadata are carried. -/
structure VectorRecord where
  id : String
  meta : VectorMeta
deriving Repr, DecidableEq

/-- State of the `PineconeClient` adapter plus the remote index contents:
the lazily-set `initialized` flag and the list of upserted records. -/
structure PineconeState where
  initialized : Bool
  records : List VectorRecord
deriving Repr, DecidableEq

/-- A chat message (`{role, content, timestamp}`). -/
structure Message where
  role : String
  content : String
  timestamp : Nat
deriving Repr, DecidableEq

/-- A session object (`{id, createdAt, messages}`). -/
structure Session where
  id : String
  createdAt : Nat
  messages : List Message
deriving Repr, DecidableEq

/-- A document held in the in-memory fallback store
(`fallbackDocuments` map values). -/
structure FallbackDoc where
  id : String
  sessionId : String
  content : String
  filename : String
  mimetype : String
  size : Nat
  timestamp : Nat
deriving Repr, DecidableEq

/-- Whole-server mutable state: the Pinecone adapter/index state and the
two process-wide fallback maps (modelled as insertion-ordered association
lists, matching JS `Map` iteration order). -/
structure ServerState where
  pinecone : PineconeState
  fallbackSessions : List (String × Session)
  fallbackDocuments : List (String × FallbackDoc)
deriving Repr, DecidableEq

/-- JS `Map.prototype.get`. -/
def lookupAssoc {α : Type} (m : List (String × α)) (k : String) : Option α :=
  (m.find? (fun p => p.1 == k)).map Prod.snd

/-- JS `Map.prototype.set`: replace in place if the key is present,
otherwise append (JS `Map` preserves insertion order). -/
def setAssoc {α : Type} (m : List (String × α)) (k : String) (v : α) : List (String × α) :=
  if (m.find? (fun p => p.1 == k)).isSome then
    m.map (fun p => if p.1 == k then (k, v) else p)
  else
    m ++ [(k, v)]

/-- An error thrown by a Gemini API call: a numeric `status` (when the
SDK attaches one) and a `message`. -/
structure GeminiError where
  status : Option Nat
  message : String
deriving Repr, DecidableEq

/-- The quota test applied by the JS code to a caught Gemini error:
`error.status === 429 || error.message.includes('quota')`. -/
def isQuotaError (e : GeminiError) : Bool :=
  e.status == some 429 || strContainsB e.message "quota"

/-- Oracles for the external managed services and the clock.  Remote
behaviour (API key presence, index stats, embedding and upsert success,
similarity scores, generative-model replies) is not decided by the local
code, so each remote step is a parameter. -/
structure Env where
  /-- `PINECONE_API_KEY` is set (so `new Pinecone(...)` can be built). -/
  apiKeyPresent : Bool
  /-- `index.describeIndexStats()` succeeds. -/
  statsOk : Bool
  /-- reported `totalVectorCount`. -/
  totalVectors : Nat
  /-- reported `dimension`. -/
  dimension : Nat
  /-- `model.embedContent(text)` succeeds for the given text. -/
  embedOk : String → Bool
  /-- `index.upsert(...)` succeeds. -/
  upsertOk : Bool
  /-- `index.query(...)` succeeds. -/
  queryOk : Bool
  /-- similarity of a stored record to a query text (remote-defined). -/
  score : String → VectorRecord → Nat
  /-- `model.generateContent(prompt)` for string prompts (chat). -/
  gemini : String → Except GeminiError String
  /-- `model.generateContent([inlineData, prompt])` used for binary
  extraction, keyed by the raw bytes and MIME type. -/
  geminiExtract : List UInt8 → String → Except GeminiError String
  /-- `Date.now()`. -/
  now : Nat

/-! ## PineconeClient (pinecone-client.js) -/

/-- Result shape of `PineconeClient.initialize`. -/
structure InitResult where
  success : Bool
  error : Option String
deriving Repr, DecidableEq

/-- `PineconeClient.initialize()`: fails iff the API key is missing
(`new Pinecone` and `pinecone.index(name)` are local constructions that do
not contact the network and never throw). -/
def initClient (env : Env) (st : PineconeState) : InitResult × PineconeState :=
  if env.apiKeyPresent then
    (⟨true, none⟩, { st with initialized := true })
  else
    (⟨false, some "Pinecone API key not provided"⟩, { st with initialized := false })

/-- The `if (!this.initialized) { ... }` preamble shared by every
operation: re-attempt `initialize` when not yet initialized. -/
def ensureInit (env : Env) (st : PineconeState) : Bool × PineconeState :=
  if st.initialized then (true, st)
  else ((initClient env st).1.success, (initClient env st).2)

/-- Result shape of `PineconeClient.healthCheck`. -/
structure HealthResult where
  success : Bool
  indexName : Option String
  totalVectors : Option Nat
  dimension : Option Nat
  error : Option String
deriving Repr, DecidableEq

/-- `PineconeClient.healthCheck()`: initialize if needed, then fetch index
statistics; reports failure instead of throwing. -/
def healthCheck (env : Env) (st : PineconeState) : HealthResult × PineconeState :=
  let ok := (ensureInit env st).1
  let st' := (ensureInit env st).2
  if !ok then (⟨false, none, none, none, some "init failed"⟩, st')
  else if env.statsOk then
    (⟨true, some "chatbot-documents", some env.totalVectors, some env.dimension, none⟩, st')
  else
    (⟨false, none, none, none, some "stats failed"⟩, st')

/-- Result shape of `PineconeClient.storeDocument`. -/
structure StoreResult where
  success : Bool
  documentId : Option String
  error : Option String
deriving Repr, DecidableEq

/-- JS `index.upsert([vector])`: replace the record with the same id if
present, else append. -/
def upsertRecord (records : List VectorRecord) (r : VectorRecord) : List VectorRecord :=
  if (records.find? (fun x => x.id == r.id)).isSome then
    records.map (fun x => if x.id == r.id then r else x)
  else
    records ++ [r]

/-- `PineconeClient.storeDocument(sessionId, documentId, content, metadata)`:
embed the content, truncate it to 40000 units for the metadata payload,
upsert one vector tagged with the session id; every error is converted to
a `{success: false}` result. -/
def storeDocument (env : Env) (st : PineconeState) (sessionId documentId content : String)
    (metadata : UploadMeta) : StoreResult × PineconeState :=
  let ok := (ensureInit env st).1
  let st' := (ensureInit env st).2
  if !ok then (⟨false, none, some "init failed"⟩, st')
  else if !(env.embedOk content) then
    (⟨false, none, some "embedding failed"⟩, st')
  else
    let rec0 : VectorRecord :=
      { id := documentId
        meta :=
          { sessionId := sessionId
            content := content.take 40000
            filename := metadata.filename
            mimetype := metadata.mimetype
            size := metadata.size
            timestamp := env.now } }
    if env.upsertOk then
      (⟨true, some documentId, none⟩, { st' with records := upsertRecord st'.records rec0 })
    else
      (⟨false, none, some "upsert failed"⟩, st')

/-- One formatted match returned by `searchDocuments`. -/
structure SearchDoc where
  id : String
  content : String
  metadata : VectorMeta
  score : Nat
deriving Repr, DecidableEq

/-- Result shape of `PineconeClient.searchDocuments`. -/
structure SearchResult where
  success : Bool
  documents : List SearchDoc
  error : Option String
deriving Repr, DecidableEq

/-- Insert a record into a list kept in descending similarity order. -/
def insertRanked (env : Env) (queryText : String) (r : VectorRecord) :
    List VectorRecord → List VectorRecord
  | [] => [r]
  | x :: xs =>
    if env.score queryText x < env.score queryText r then r :: x :: xs
    else x :: insertRanked env queryText r xs

/-- Order records by descending similarity to the query (insertion
sort over the remote similarity oracle). -/
def rankRecords (env : Env) (queryText : String) : List VectorRecord → List VectorRecord
  | [] => []
  | x :: xs => insertRanked env queryText x (rankRecords env queryText xs)

/-- The remote `index.query({vector, topK, filter: {sessionId: {$eq: ...}},
includeMetadata: true})` call: records whose metadata `sessionId` equals
the filter value, best similarity first, truncated to `topK`.  The
equality filter is the vector index service's documented contract; the
ordering comes from the remote similarity oracle. -/
def queryIndex (env : Env) (records : List VectorRecord) (queryText sessionId : String)
    (topK : Nat) : List VectorRecord :=
  ((rankRecords env queryText (records.filter (fun r => r.meta.sessionId == sessionId))).take
    topK)

/-- `PineconeClient.searchDocuments(sessionId, query, topK = 3)`: embed the
query, run the filtered similarity search, format matches; on any error
return `{success: false, documents: []}` without throwing. -/
def searchDocuments (env : Env) (st : PineconeState) (sessionId query : String)
    (topK : Nat) : SearchResult × PineconeState :=
  let ok := (ensureInit env st).1
  let st' := (ensureInit env st).2
  if !ok then (⟨false, [], some "init failed"⟩, st')
  else if !(env.embedOk query) then
    (⟨false, [], some "embedding failed"⟩, st')
  else if !env.queryOk then
    (⟨false, [], some "query failed"⟩, st')
  else
    let hits := queryIndex env st'.records query sessionId topK
    let documents := hits.map (fun r =>
      { id := r.id
        content := r.meta.content
        metadata := r.meta
        score := env.score query r : SearchDoc })
    (⟨true, documents, none⟩, st')

/-! ## Text extraction (chatbot-api-pinecone.js, `extractTextFromDocument`) -/

/-- An uploaded file as multer delivers it: original name, MIME type,
byte size and the in-memory buffer (raw bytes). -/
structure UploadFile where
  originalname : String
  mimetype : String
  size : Nat
  buffer : List UInt8
deriving Repr, DecidableEq

/-- `extractTextWithGemini(fileBuffer, mimeType)`: one `generateContent`
call; a caught quota error is rethrown with the quota message, any other
error with a generic message.  The second component counts
`generateContent` calls made (always 1 on this path). -/
def extractTextWithGemini (env : Env) (fileBuffer : List UInt8) (mimeType : String) :
    Except String String × Nat :=
  match env.geminiExtract fileBuffer mimeType with
  | .ok t => (.ok t, 1)
  | .error e =>
    if isQuotaError e then
      (.error "API quota exceeded. Please try again later or upload PDF/TXT files for better processing.", 1)
    else
      (.error "Failed to extract text from document", 1)

/-- `extractTextFromDocument(fileBuffer, mimeType, filename)`: plain text
is decoded directly from the bytes with no external call; every other
MIME type goes through Gemini, and errors are wrapped with the filename.
The second component counts `generateContent` calls made. -/
def extractTextFromDocument (env : Env) (fileBuffer : List UInt8)
    (mimeType filename : String) : Except String String × Nat :=
  if mimeType == "text/plain" then
    (.ok (utf8Decode fileBuffer), 0)
  else
    match extractTextWithGemini env fileBuffer mimeType with
    | (.ok t, n) => (.ok t, n)
    | (.error m, n) => (.error ("Failed to extract text from " ++ filename ++ ": " ++ m), n)

/-! ## Ingestion (chatbot-api-pinecone.js, `processAndStoreFile`) -/

/-- Per-file success record returned by `processAndStoreFile`. -/
structure FileResult where
  success : Bool
  documentId : String
  filename : String
  textLength : Nat
  storage : String
deriving Repr, DecidableEq

/-- The synthesized document id
`` `${sessionId}_${Date.now()}_${file.originalname}` ``. -/
def makeDocumentId (sessionId : String) (now : Nat) (originalname : String) : String :=
  sessionId ++ "_" ++ toString now ++ "_" ++ originalname

/-- `processAndStoreFile(sessionId, file)`: extract, reject
empty/whitespace-only text, synthesize an id, try Pinecone, and on
Pinecone failure write the document into the in-memory fallback map.
`.error` models a thrown exception (state returned alongside, since the
fallback maps survive the throw untouched). -/
def processAndStoreFile (env : Env) (st : ServerState) (sessionId : String)
    (file : UploadFile) : Except String FileResult × ServerState :=
  match extractTextFromDocument env file.buffer file.mimetype file.originalname with
  | (.error m, _) => (.error m, st)
  | (.ok extractedText, _) =>
    if extractedText == "" || jsTrim extractedText == "" then
      (.error "No text could be extracted from the document", st)
    else
      let documentId := makeDocumentId sessionId env.now file.originalname
      let pineconeResult := (storeDocument env st.pinecone sessionId documentId
        extractedText ⟨file.originalname, file.mimetype, file.size⟩).1
      let pst' := (storeDocument env st.pinecone sessionId documentId
        extractedText ⟨file.originalname, file.mimetype, file.size⟩).2
      if pineconeResult.success then
        (.ok
          { success := true
            documentId := documentId
            filename := file.originalname
            textLength := extractedText.length
            storage := "pinecone" },
         { st with pinecone := pst' })
      else
        let docKey := sessionId ++ "_" ++ documentId
        let doc : FallbackDoc :=
          { id := documentId
            sessionId := sessionId
            content := extractedText
            filename := file.originalname
            mimetype := file.mimetype
            size := file.size
            timestamp := env.now }
        (.ok
          { success := true
            documentId := documentId
            filename := file.originalname
            textLength := extractedText.length
            storage := "fallback" },
         { st with pinecone := pst'
                   fallbackDocuments := setAssoc st.fallbackDocuments docKey doc })

/-! ## Upload endpoint (chatbot-api-pinecone.js, `router.post('/upload')`) -/

/-- A per-file failure entry (`{filename, error}`). -/
structure UploadErr where
  filename : String
  error : String
deriving Repr, DecidableEq

/-- The `for (const file of req.files)` loop: each file is processed
independently, successes collected into `results` and thrown errors
caught into `errors`. -/
def uploadLoop (env : Env) (sessionId : String) :
    List UploadFile → ServerState → List FileResult × List UploadErr × ServerState
  | [], st => ([], [], st)
  | f :: fs, st =>
    match processAndStoreFile env st sessionId f with
    | (.ok r, st') =>
      (r :: (uploadLoop env sessionId fs st').1,
       (uploadLoop env sessionId fs st').2.1,
       (uploadLoop env sessionId fs st').2.2)
    | (.error m, st') =>
      ((uploadLoop env sessionId fs st').1,
       ⟨f.originalname, m⟩ :: (uploadLoop env sessionId fs st').2.1,
       (uploadLoop env sessionId fs st').2.2)

/-- HTTP response of the `/upload` endpoint. -/
inductive UploadResponse where
  | jsonOk (success : Bool) (message : String) (results : List FileResult)
      (errors : Option (List UploadErr))
  | badRequest (error : String)
deriving Repr, DecidableEq

/-- `router.post('/upload')`: validate the session id and file list, run
the per-file loop, and always answer HTTP 200 with `success: true`
(errors are reported per file, never as a request failure). -/
def uploadHandler (env : Env) (st : ServerState) (sessionId : String)
    (files : List UploadFile) : UploadResponse × ServerState :=
  if sessionId == "" then (.badRequest "Session ID is required", st)
  else if files.isEmpty then (.badRequest "No files uploaded", st)
  else
    let results := (uploadLoop env sessionId files st).1
    let errors := (uploadLoop env sessionId files st).2.1
    (.jsonOk true ("Processed " ++ toString results.length ++ " documents successfully")
      results (if errors.length > 0 then some errors else none),
     (uploadLoop env sessionId files st).2.2)

/-! ## Session resolution (chatbot-api-pinecone.js, `getOrCreateSession`) -/

/-- A freshly constructed session object. -/
def freshSession (sessionId : String) (now : Nat) : Session :=
  { id := sessionId, createdAt := now, messages := [] }

/-- Result of `getOrCreateSession`: the session object, the updated server
state, and whether the returned object aliases an entry of the
`fallbackSessions` map (so that later `session.messages.push` mutations
persist). -/
structure ResolvedSession where
  session : Session
  state : ServerState
  fromFallback : Bool
deriving Repr, DecidableEq

/-- `getOrCreateSession(sessionId)`: when the Pinecone health check
succeeds, a transient session object is returned and nothing is stored;
otherwise the session is created lazily in (and returned from) the
`fallbackSessions` map. -/
def getOrCreateSession (env : Env) (st : ServerState) (sessionId : String) :
    ResolvedSession :=
  let hc := (healthCheck env st.pinecone).1
  let pst' := (healthCheck env st.pinecone).2
  if hc.success then
    ⟨freshSession sessionId env.now, { st with pinecone := pst' }, false⟩
  else
    let sessions' :=
      if (lookupAssoc st.fallbackSessions sessionId).isSome then st.fallbackSessions
      else st.fallbackSessions ++ [(sessionId, freshSession sessionId env.now)]
    ⟨(lookupAssoc sessions' sessionId).getD (freshSession sessionId env.now),
      { st with pinecone := pst', fallbackSessions := sessions' }, true⟩

/-! ## Chat endpoint (chatbot-api-pinecone.js, `router.post('/chat')`) -/

/-- A retrieved document as consumed by the prompt builder: the JS code
reads `doc.content || doc.text || ''` and
`doc.metadata?.filename || doc.filename || 'Document N'` off either a
Pinecone match or a fallback document. -/
structure ChatDoc where
  content : String
  filename : String
deriving Repr, DecidableEq

/-- View of a Pinecone search match as a prompt document. -/
def searchDocToChatDoc (d : SearchDoc) : ChatDoc :=
  { content := d.content, filename := d.metadata.filename }

/-- View of a fallback-store document as a prompt document. -/
def fallbackToChatDoc (d : FallbackDoc) : ChatDoc :=
  { content := d.content, filename := d.filename }

/-- One grounding entry
`` `Document: ${filename}\n${content.substring(0, 2000)}...\n\n` ``; an
empty (JS-falsy) filename falls back to `Document N`. -/
def docEntry (idx : Nat) (d : ChatDoc) : String :=
  "Document: " ++ (if d.filename == "" then "Document " ++ toString (idx + 1) else d.filename)
    ++ "\n" ++ d.content.take 2000 ++ "...\n\n"

/-- The `relevantDocs.forEach((doc, index) => ...)` accumulation. -/
def contextEntries (idx : Nat) : List ChatDoc → String
  | [] => ""
  | d :: ds => docEntry idx d ++ contextEntries (idx + 1) ds

/-- The grounding context header plus one entry per retrieved document. -/
def groundingContext (docs : List ChatDoc) : String :=
  "Based on the uploaded documents:\n\n" ++ contextEntries 0 docs

/-- Instruction tail of the document-grounded prompt (verbatim from the
template literal). -/
def docPromptTail : String :=
  "\n\nPlease provide a comprehensive, well-formatted answer based primarily on the information from the uploaded documents. Format your response with:\n- Use **bold** for important terms and headings\n- Use bullet points (-) for lists\n- Use numbered lists (1., 2., 3.) for sequential steps\n- Separate paragraphs with line breaks\n- If the documents don\x27t contain enough information, supplement with general knowledge while clearly indicating what comes from documents vs. general knowledge\n\nMake your response clear, organized, and easy to read."

/-- The document-grounded prompt: grounding context, the user question,
then the formatting instructions. -/
def docPrompt (docs : List ChatDoc) (message : String) : String :=
  groundingContext docs ++ "\n\nUser question: " ++ message ++ docPromptTail

/-- Text of the no-documents prompt before the interpolated message. -/
def generalPromptPre : String :=
  "You are a helpful AI assistant. The user has asked: \""

/-- Text of the no-documents prompt after the interpolated message. -/
def generalPromptPost : String :=
  "\"\n\nSince no relevant documents have been uploaded for this question, please provide a helpful and informative response based on your general knowledge. \n\nFormat your response with:\n- Use **bold** for important terms and headings\n- Use bullet points (-) for lists  \n- Use numbered lists (1., 2., 3.) for sequential steps\n- Separate paragraphs with line breaks\n- Make it clear, organized, and easy to read\n\nIf this question would benefit from specific documentation or context, you can suggest that the user upload relevant documents for more targeted assistance."

/-- The general-knowledge prompt used when no documents were retrieved. -/
def generalPrompt (message : String) : String :=
  generalPromptPre ++ message ++ generalPromptPost

/-- Body of a JSON-200 chat answer. -/
structure ChatBody where
  success : Bool
  response : String
  documentsFound : Nat
  storage : String
  warning : Option String
deriving Repr, DecidableEq

/-- HTTP response of the `/chat` endpoint. -/
inductive ChatResponse where
  | jsonOk (body : ChatBody)
  | badRequest (error : String)
  | serverError (error : String) (details : String)
deriving Repr, DecidableEq

/-- Server state once the session is resolved and the Pinecone search has
run (neither step touches the fallback document map). -/
def chatStateAfterSearch (env : Env) (st : ServerState) (sessionId message : String) :
    ServerState :=
  let st1 := (getOrCreateSession env st sessionId).state
  { st1 with pinecone := (searchDocuments env st1.pinecone sessionId message 3).2 }

/-- The `pinecone.searchDocuments(sessionId, message, 3)` result inside
the chat handler. -/
def chatSearchRes (env : Env) (st : ServerState) (sessionId message : String) :
    SearchResult :=
  (searchDocuments env (getOrCreateSession env st sessionId).state.pinecone
    sessionId message 3).1

/-- The fallback scan: first three `fallbackDocuments` entries belonging
to the session, in storage order. -/
def chatFallbackScan (st : ServerState) (sessionId : String) : List FallbackDoc :=
  ((st.fallbackDocuments.map Prod.snd).filter (fun d => d.sessionId == sessionId)).take 3

/-- `relevantDocs` as computed by the chat handler: Pinecone matches when
the search succeeded with at least one result, otherwise the fallback
scan. -/
def chatRelevantDocs (env : Env) (st : ServerState) (sessionId message : String) :
    List ChatDoc :=
  let sr := chatSearchRes env st sessionId message
  if sr.success && decide (0 < sr.documents.length) then
    sr.documents.map searchDocToChatDoc
  else
    (chatFallbackScan (chatStateAfterSearch env st sessionId message) sessionId).map
      fallbackToChatDoc

/-- The prompt assembled by the chat handler. -/
def chatPrompt (env : Env) (st : ServerState) (sessionId message : String) : String :=
  let docs := chatRelevantDocs env st sessionId message
  if 0 < docs.length then docPrompt docs message else generalPrompt message

/-- The `storage` field of the chat answer:
`pineconeSearchResult.success ? 'pinecone' : 'fallback'`. -/
def chatStorageLabel (env : Env) (st : ServerState) (sessionId message : String) : String :=
  if (chatSearchRes env st sessionId message).success then "pinecone" else "fallback"

/-- Canned degraded answer used on a quota error when documents were
found. -/
def quotaReplyDocs (n : Nat) : String :=
  "I found " ++ toString n ++ " relevant document(s) for your question, but I\x27m currently unable to process them due to API quota limits. Please try again later, or contact support for assistance."

/-- Canned degraded answer used on a quota error when no documents were
found. -/
def quotaReplyNoDocs : String :=
  "I\x27m currently unable to process your request due to API quota limits. Please try again later. In the meantime, you can upload PDF or text documents for better processing efficiency."

/-- Append freshly pushed messages to a stored fallback session (the JS
`session.messages.push(...)` mutating an object held in the map). -/
def pushMessages (m : List (String × Session)) (sessionId : String)
    (msgs : List Message) : List (String × Session) :=
  m.map (fun p =>
    if p.1 == sessionId then (p.1, { p.2 with messages := p.2.messages ++ msgs }) else p)

/-- `router.post('/chat')`: validate, resolve the session, retrieve
context (Pinecone search, falling back to the in-memory scan), assemble
the prompt, call the model; on success record the turn on the session
object, on a quota error answer with a canned degraded body, on any other
model error answer HTTP 500. -/
def chat (env : Env) (st : ServerState) (sessionId message : String) :
    ChatResponse × ServerState :=
  if sessionId == "" || message == "" then
    (.badRequest "Session ID and message are required", st)
  else
    let resolved := getOrCreateSession env st sessionId
    let st2 := chatStateAfterSearch env st sessionId message
    let relevantDocs := chatRelevantDocs env st sessionId message
    let prompt := chatPrompt env st sessionId message
    let storage := chatStorageLabel env st sessionId message
    match env.gemini prompt with
    | .ok aiResponse =>
      let newMsgs : List Message :=
        [⟨"user", message, env.now⟩, ⟨"assistant", aiResponse, env.now⟩]
      let st3 :=
        if resolved.fromFallback then
          { st2 with fallbackSessions := pushMessages st2.fallbackSessions sessionId newMsgs }
        else st2
      (.jsonOk
        { success := true
          response := aiResponse
          documentsFound := relevantDocs.length
          storage := storage
          warning := none }, st3)
    | .error e =>
      if isQuotaError e then
        (.jsonOk
          { success := true
            response := if 0 < relevantDocs.length then quotaReplyDocs relevantDocs.length
              else quotaReplyNoDocs
            documentsFound := relevantDocs.length
            storage := storage
            warning := some "API quota exceeded" }, st2)
      else
        (.serverError "Failed to process chat message" e.message, st2)

/-! ## Concrete fixtures used by counterexamples and witnesses -/

/-- A fully healthy environment: Pinecone reachable, embeddings, upserts
and queries succeed, the chat model answers `"ok"`. -/
def envHealthy : Env :=
  { apiKeyPresent := true
    statsOk := true
    totalVectors := 0
    dimension := 1536
    embedOk := fun _ => true
    upsertOk := true
    queryOk := true
    score := fun _ _ => 0
    gemini := fun _ => .ok "ok"
    geminiExtract := fun _ _ => .error ⟨none, "no extraction"⟩
    now := 7 }

/-- The pristine server state: uninitialized client, empty index, empty
fallback maps. -/
def st0 : ServerState :=
  { pinecone := { initialized := false, records := [] }
    fallbackSessions := []
    fallbackDocuments := [] }

/-- A fallback-store document owned by session `s1`. -/
def fbDoc1 : FallbackDoc :=
  { id := "d1"
    sessionId := "s1"
    content := "cement production notes"
    filename := "notes.txt"
    mimetype := "text/plain"
    size := 23
    timestamp := 0 }

/-- Server state whose fallback document map holds `fbDoc1` and whose
vector index is empty. -/
def stFb : ServerState :=
  { pinecone := { initialized := false, records := [] }
    fallbackSessions := []
    fallbackDocuments := [("s1_d1", fbDoc1)] }

/-! ## General list lemmas about substring containment -/

/-- A prefix is in particular an infix. -/
theorem isInfix_of_isPrefix {α : Type} {l₁ l₂ : List α} (h : l₁ <+: l₂) : l₁ <:+: l₂ := by
  obtain ⟨r, hr⟩ := h
  exact ⟨[], r, by simpa using hr⟩

/-- An infix of the left part is an infix of the concatenation. -/
theorem infix_appendR {α : Type} {t l r : List α} (h : t <:+: l) : t <:+: l ++ r := by
  obtain ⟨s, u, hsu⟩ := h
  exact ⟨s, u ++ r, by rw [← hsu]; simp⟩

/-- An infix of the right part is an infix of the concatenation. -/
theorem infix_appendL {α : Type} {t l r : List α} (h : t <:+: r) : t <:+: l ++ r := by
  obtain ⟨s, u, hsu⟩ := h
  exact ⟨l ++ s, u, by rw [← hsu]; simp⟩

/-- A prefix of a concatenation is a prefix of the left part, or extends
the whole left part and its remainder is a prefix of the right part. -/
theorem prefix_split {α : Type} {t l₁ l₂ : List α} (h : t <+: l₁ ++ l₂) :
    t <+: l₁ ∨ (l₁ <+: t ∧ t.drop l₁.length <+: l₂) := by
  rcases Nat.le_total t.length l₁.length with hle | hle
  · exact Or.inl (List.prefix_of_prefix_length_le h (List.prefix_append l₁ l₂) hle)
  · have hl : l₁ <+: t := List.prefix_of_prefix_length_le (List.prefix_append l₁ l₂) h hle
    refine Or.inr ⟨hl, ?_⟩
    obtain ⟨r, hr⟩ := h
    obtain ⟨u, hu⟩ := hl
    have hu' : t.drop l₁.length = u := by rw [← hu]; exact List.drop_left l₁ u
    rw [hu']
    refine ⟨r, ?_⟩
    have h2 : l₁ ++ (u ++ r) = l₁ ++ l₂ := by rw [← List.append_assoc, hu, hr]
    exact List.append_cancel_left h2

/-- An infix of a concatenation lies in the left part, in the right part,
or spans the boundary (a nonempty proper prefix of it is a suffix of the
left part and the matching remainder is a prefix of the right part). -/
theorem infix_split {α : Type} {t l₁ l₂ : List α} (h : t <:+: l₁ ++ l₂) :
    t <:+: l₁ ∨ t <:+: l₂ ∨
      ∃ k, 0 < k ∧ k < t.length ∧ t.take k <:+ l₁ ∧ t.drop k <+: l₂ := by
  induction l₁ with
  | nil => exact Or.inr (Or.inl (by simpa using h))
  | cons a as ih =>
    rw [List.cons_append] at h
    rcases List.infix_cons_iff.mp h with hp | hi
    · rcases @prefix_split α t (a :: as) l₂ hp with h1 | ⟨h2, h3⟩
      · exact Or.inl (isInfix_of_isPrefix h1)
      · by_cases hkl : (a :: as).length < t.length
        · refine Or.inr (Or.inr ⟨(a :: as).length, by simp, hkl, ?_, h3⟩)
          rw [(List.prefix_iff_eq_take.mp h2).symm]
        · have hlen : (a :: as).length = t.length :=
            Nat.le_antisymm h2.length_le (Nat.not_lt.mp hkl)
          have ht : a :: as = t := h2.eq_of_length hlen
          exact Or.inl (ht ▸ List.infix_rfl)
    · rcases ih hi with h1 | h2 | ⟨k, hk0, hkt, hks, hkp⟩
      · exact Or.inl (List.infix_cons h1)
      · exact Or.inr (Or.inl h2)
      · exact Or.inr (Or.inr ⟨k, hk0, hkt, hks.trans (List.suffix_cons a as), hkp⟩)

/-! ## Lemmas about the embedded operations -/

/-- Membership in the ranked insertion. -/
theorem mem_insertRanked {env : Env} {q : String} {r a : VectorRecord}
    {l : List VectorRecord} : a ∈ insertRanked env q r l ↔ a = r ∨ a ∈ l := by
  induction l with
  | nil => simp [insertRanked]
  | cons x xs ih =>
    by_cases h : env.score q x < env.score q r
    · simp [insertRanked, h]
    · simp [insertRanked, h, ih]
      tauto

/-- Ranking records by similarity does not change membership. -/
theorem mem_rankRecords {env : Env} {q : String} {a : VectorRecord}
    {l : List VectorRecord} : a ∈ rankRecords env q l ↔ a ∈ l := by
  induction l with
  | nil => simp [rankRecords]
  | cons x xs ih => simp [rankRecords, mem_insertRanked, ih]

/-- `ensureInit` never changes the stored records. -/
theorem ensureInit_records (env : Env) (p : PineconeState) :
    (ensureInit env p).2.records = p.records := by
  unfold ensureInit initClient
  split
  · rfl
  · split <;> rfl

/-! ## Claim theorems -/

/-- C1: `searchDocuments(S, query)` returns only documents whose owning
session id (in vector metadata) equals `S` — for every environment, index
state, query and `topK`, across all success and failure paths — because
the vector query carries the exact-match `sessionId` filter. -/
theorem searchDocuments_only_session_docs (env : Env) (st : PineconeState)
    (sessionId query : String) (topK : Nat) :
    ((searchDocuments env st sessionId query topK).1.documents.all
      (fun d => d.metadata.sessionId == sessionId)) = true := by
  unfold searchDocuments
  by_cases h1 : (ensureInit env st).1
  · by_cases h2 : env.embedOk query
    · by_cases h3 : env.queryOk
      · simp only [h1, h2, h3, Bool.not_true, Bool.false_eq_true, if_false]
        rw [List.all_eq_true]
        intro d hd
        rw [List.mem_map] at hd
        obtain ⟨r, hr, hrd⟩ := hd
        unfold queryIndex at hr
        have hr' : r ∈ (ensureInit env st).2.records.filter
            (fun r => r.meta.sessionId == sessionId) :=
          mem_rankRecords.mp (List.mem_of_mem_take hr)
        have := (List.mem_filter.mp hr').2
        rw [← hrd]
        simpa using this
      · simp [h1, h2, h3]
    · simp [h1, h2]
  · simp [h1]

/-- C4: when extraction yields empty or whitespace-only text,
`processAndStoreFile` fails with the descriptive error and leaves the
whole server state (vector index and fallback maps) untouched, so no
document is created in either store. -/
theorem empty_extraction_rejected (env : Env) (st : ServerState) (sessionId : String)
    (file : UploadFile) (t : String)
    (hex : (extractTextFromDocument env file.buffer file.mimetype file.originalname).1 = .ok t)
    (htrim : jsTrim t = "") :
    processAndStoreFile env st sessionId file =
      (.error "No text could be extracted from the document", st) := by
  unfold processAndStoreFile
  rcases hE : extractTextFromDocument env file.buffer file.mimetype file.originalname
    with ⟨r, n⟩
  rw [hE] at hex
  simp only at hex
  subst hex
  have hcond : (t == "" || jsTrim t == "") = true := by
    simp [htrim]
  simp [hcond]

/-- Closed witness for C4: a plain-text file holding a single space is
rejected with the descriptive error and the state is unchanged. -/
theorem empty_extraction_rejected_w :
    processAndStoreFile envHealthy st0 "s1" ⟨"blank.txt", "text/plain", 1, [32]⟩ =
      (.error "No text could be extracted from the document", st0) :=
  empty_extraction_rejected envHealthy st0 "s1" ⟨"blank.txt", "text/plain", 1, [32]⟩
    " " rfl (by decide)

/-- Shared characterisation of a successful ingestion: with nonempty
extracted text, `processAndStoreFile` succeeds, reporting
`storage = "pinecone"` exactly when the Pinecone `storeDocument` call
succeeded, and writing the fallback map only in the failure case. -/
theorem processAndStoreFile_ok (env : Env) (st : ServerState) (sessionId : String)
    (file : UploadFile) (t : String)
    (hex : (extractTextFromDocument env file.buffer file.mimetype file.originalname).1 = .ok t)
    (htrim : jsTrim t ≠ "") :
    processAndStoreFile env st sessionId file =
      (.ok
        { success := true
          documentId := makeDocumentId sessionId env.now file.originalname
          filename := file.originalname
          textLength := t.length
          storage :=
            if (storeDocument env st.pinecone sessionId
                (makeDocumentId sessionId env.now file.originalname) t
                ⟨file.originalname, file.mimetype, file.size⟩).1.success
            then "pinecone" else "fallback" },
       if (storeDocument env st.pinecone sessionId
            (makeDocumentId sessionId env.now file.originalname) t
            ⟨file.originalname, file.mimetype, file.size⟩).1.success then
         { st with pinecone := (storeDocument env st.pinecone sessionId
             (makeDocumentId sessionId env.now file.originalname) t
             ⟨file.originalname, file.mimetype, file.size⟩).2 }
       else
         { st with
           pinecone := (storeDocument env st.pinecone sessionId
             (makeDocumentId sessionId env.now file.originalname) t
             ⟨file.originalname, file.mimetype, file.size⟩).2
           fallbackDocuments := setAssoc st.fallbackDocuments
             (sessionId ++ "_" ++ makeDocumentId sessionId env.now file.originalname)
             { id := makeDocumentId sessionId env.now file.originalname
               sessionId := sessionId
               content := t
               filename := file.originalname
               mimetype := file.mimetype
               size := file.size
               timestamp := env.now } }) := by
  unfold processAndStoreFile
  rcases hE : extractTextFromDocument env file.buffer file.mimetype file.originalname
    with ⟨r, n⟩
  rw [hE] at hex
  simp only at hex
  subst hex
  have ht' : t ≠ "" := by
    intro h
    exact htrim (by rw [h]; rfl)
  have hcond : (t == "" || jsTrim t == "") = false := by
    simp [ht', htrim]
  simp only [hcond, Bool.false_eq_true, if_false]
  by_cases hs : (storeDocument env st.pinecone sessionId
      (makeDocumentId sessionId env.now file.originalname) t
      ⟨file.originalname, file.mimetype, file.size⟩).1.success
  · simp [hs]
  · simp [hs]

/-- `storeDocument` leaves the stored records untouched whenever it
reports failure. -/
theorem storeDocument_fail_records (env : Env) (p : PineconeState)
    (sessionId documentId content : String) (m : UploadMeta)
    (h : (storeDocument env p sessionId documentId content m).1.success = false) :
    (storeDocument env p sessionId documentId content m).2.records = p.records := by
  unfold storeDocument
  unfold storeDocument at h
  by_cases h1 : (ensureInit env p).1
  · by_cases h2 : env.embedOk content
    · by_cases h3 : env.upsertOk
      · simp [h1, h2, h3] at h
      · simp [h1, h2, h3, ensureInit_records]
    · simp [h1, h2, ensureInit_records]
  · simp [h1, ensureInit_records]

/-- C5: a successful ingestion writes the document to exactly one store —
to the Pinecone index when `storeDocument` succeeds (fallback map
untouched), and to the in-memory fallback map when `storeDocument`
fails (in which case the index records are untouched) — and the reported
storage tier names that store. -/
theorem ingest_exactly_one_store (env : Env) (st : ServerState) (sessionId : String)
    (file : UploadFile) (t : String)
    (hex : (extractTextFromDocument env file.buffer file.mimetype file.originalname).1 = .ok t)
    (htrim : jsTrim t ≠ "") :
    ∃ r : FileResult, ∃ st' : ServerState,
      processAndStoreFile env st sessionId file = (.ok r, st') ∧ r.success = true ∧
      ((r.storage = "pinecone" ∧
          st'.fallbackDocuments = st.fallbackDocuments ∧
          (storeDocument env st.pinecone sessionId r.documentId t
            ⟨file.originalname, file.mimetype, file.size⟩).1.success = true) ∨
       (r.storage = "fallback" ∧
          st'.pinecone.records = st.pinecone.records ∧
          st'.fallbackDocuments = setAssoc st.fallbackDocuments (sessionId ++ "_" ++ r.documentId)
            { id := r.documentId
              sessionId := sessionId
              content := t
              filename := file.originalname
              mimetype := file.mimetype
              size := file.size
              timestamp := env.now } ∧
          (storeDocument env st.pinecone sessionId r.documentId t
            ⟨file.originalname, file.mimetype, file.size⟩).1.success = false)) := by
  have h := processAndStoreFile_ok env st sessionId file t hex htrim
  by_cases hs : (storeDocument env st.pinecone sessionId
      (makeDocumentId sessionId env.now file.originalname) t
      ⟨file.originalname, file.mimetype, file.size⟩).1.success = true
  · refine ⟨_, _, h, rfl, Or.inl ⟨?_, ?_, hs⟩⟩
    · simp [hs]
    · simp [hs]
  · refine ⟨_, _, h, rfl, Or.inr ⟨?_, ?_, ?_, by simpa using hs⟩⟩
    · simp [hs]
    · simp only [hs, Bool.false_eq_true, if_false]
      exact storeDocument_fail_records env st.pinecone sessionId
        (makeDocumentId sessionId env.now file.originalname) t
        ⟨file.originalname, file.mimetype, file.size⟩ (by simpa using hs)
    · simp [hs]

/-- Closed witness for C5: ingesting a plain-text file against an
unreachable Pinecone (no API key) stores it in the fallback map. -/
theorem ingest_exactly_one_store_w :
    ∃ r : FileResult, ∃ st' : ServerState,
      processAndStoreFile { envHealthy with apiKeyPresent := false } st0 "s1"
          ⟨"a.txt", "text/plain", 2, [104, 105]⟩ = (.ok r, st') ∧ r.success = true ∧
      ((r.storage = "pinecone" ∧
          st'.fallbackDocuments = st0.fallbackDocuments ∧
          (storeDocument { envHealthy with apiKeyPresent := false } st0.pinecone "s1"
            r.documentId "hi" ⟨"a.txt", "text/plain", 2⟩).1.success = true) ∨
       (r.storage = "fallback" ∧
          st'.pinecone.records = st0.pinecone.records ∧
          st'.fallbackDocuments = setAssoc st0.fallbackDocuments ("s1_" ++ r.documentId)
            { id := r.documentId
              sessionId := "s1"
              content := "hi"
              filename := "a.txt"
              mimetype := "text/plain"
              size := 2
              timestamp := 7 } ∧
          (storeDocument { envHealthy with apiKeyPresent := false } st0.pinecone "s1"
            r.documentId "hi" ⟨"a.txt", "text/plain", 2⟩).1.success = false)) :=
  ingest_exactly_one_store { envHealthy with apiKeyPresent := false } st0 "s1"
    ⟨"a.txt", "text/plain", 2, [104, 105]⟩ "hi" rfl (by decide)

/-- C6: extracting a `text/plain` upload returns exactly the raw bytes
decoded as UTF-8 and performs zero `generateContent` calls. -/
theorem plain_text_extraction_verbatim (env : Env) (buffer : List UInt8)
    (filename : String) :
    extractTextFromDocument env buffer "text/plain" filename =
      (.ok (utf8Decode buffer), 0) := rfl

/-- C8: uploading `manual.txt` with the 39-character kiln-temperature
sentence for session `s1` yields a successful ingestion result with
`textLength = 39` and a document id starting with `s1_` (synthesized from
the session id, the clock, and the filename), for every environment and
starting state. -/
theorem kiln_upload_scenario (env : Env) (st : ServerState) (size : Nat) :
    ∃ r : FileResult, ∃ st' : ServerState,
      processAndStoreFile env st "s1"
          ⟨"manual.txt", "text/plain", size,
            asciiBytes "Kiln temperature must stay below 1450C."⟩ = (.ok r, st') ∧
      r.success = true ∧ r.textLength = 39 ∧ strStarts r.documentId "s1_" := by
  have hdec : utf8Decode (asciiBytes "Kiln temperature must stay below 1450C.") =
      "Kiln temperature must stay below 1450C." := by decide
  have hex : (extractTextFromDocument env
      (asciiBytes "Kiln temperature must stay below 1450C.") "text/plain" "manual.txt").1 =
      .ok "Kiln temperature must stay below 1450C." := by
    rw [show extractTextFromDocument env
        (asciiBytes "Kiln temperature must stay below 1450C.") "text/plain" "manual.txt" =
        (.ok (utf8Decode (asciiBytes "Kiln temperature must stay below 1450C.")), 0) from rfl]
    rw [hdec]
  have h := processAndStoreFile_ok env st "s1"
    ⟨"manual.txt", "text/plain", size, asciiBytes "Kiln temperature must stay below 1450C."⟩
    "Kiln temperature must stay below 1450C." hex (by decide)
  refine ⟨_, _, h, rfl, ?_, ?_⟩
  · show ("Kiln temperature must stay below 1450C.").length = 39
    decide
  · show strStarts (makeDocumentId "s1" env.now "manual.txt") "s1_"
    unfold strStarts makeDocumentId
    rw [show ("s1_").data = ['s', '1', '_'] from rfl]
    simp only [String.data_append]
    simp only [List.append_assoc, List.cons_append, List.nil_append]
    exact ⟨_, rfl⟩

/-- Every file of a batch lands in exactly one of the `results` and
`errors` lists of the upload loop (no file is dropped, no file aborts the
rest). -/
theorem uploadLoop_partition (env : Env) (sessionId : String) (files : List UploadFile)
    (st : ServerState) :
    (uploadLoop env sessionId files st).1.length +
      (uploadLoop env sessionId files st).2.1.length = files.length := by
  induction files generalizing st with
  | nil => rfl
  | cons f fs ih =>
    unfold uploadLoop
    rcases hp : processAndStoreFile env st sessionId f with ⟨r, st'⟩
    cases r with
    | ok fr =>
      have := ih st'
      simp only [List.length_cons]
      omega
    | error m =>
      have := ih st'
      simp only [List.length_cons]
      omega

/-- C9: with a session id and at least one file, `/upload` answers
HTTP 200 with top-level `success = true`, reporting the loop's per-file
successes and per-file failures (the `errors` list appears exactly when
some file failed), and the two lists together account for every uploaded
file — so one file's failure never aborts the rest, and an all-failed
batch still succeeds with an empty `results` list. -/
theorem upload_partial_failure_ok (env : Env) (st : ServerState) (sessionId : String)
    (files : List UploadFile) (hs : sessionId ≠ "") (hf : files ≠ []) :
    (uploadHandler env st sessionId files).1 =
      .jsonOk true
        ("Processed " ++ toString (uploadLoop env sessionId files st).1.length
          ++ " documents successfully")
        (uploadLoop env sessionId files st).1
        (if (uploadLoop env sessionId files st).2.1.length > 0
         then some (uploadLoop env sessionId files st).2.1 else none)
    ∧ (uploadLoop env sessionId files st).1.length +
        (uploadLoop env sessionId files st).2.1.length = files.length := by
  refine ⟨?_, uploadLoop_partition env sessionId files st⟩
  unfold uploadHandler
  have h1 : (sessionId == "") = false := by simp [hs]
  have h2 : files.isEmpty = false := by
    cases files with
    | nil => exact absurd rfl hf
    | cons f fs => rfl
  simp [h1, h2]

/-- Closed witness for C9: a batch whose only file fails extraction still
gets a 200 `success = true` answer, with the failure reported per file. -/
theorem upload_partial_failure_ok_w :
    (uploadHandler envHealthy st0 "s1" [⟨"blank.txt", "text/plain", 1, [32]⟩]).1 =
      .jsonOk true "Processed 0 documents successfully" []
        (some [⟨"blank.txt", "No text could be extracted from the document"⟩]) := by
  have h := upload_partial_failure_ok envHealthy st0 "s1"
    [⟨"blank.txt", "text/plain", 1, [32]⟩] (by decide) (by decide)
  exact h.1.trans (by decide)

/-- C3: when the generative call fails, the chat request degrades exactly
on quota errors (status 429 or a message containing "quota"): it still
answers 200 with `success = true`, the canned response whose wording
depends on whether documents were found, the document count and the
warning field; any other model error becomes a request failure. -/
theorem chat_quota_degrades (env : Env) (st : ServerState) (sessionId message : String)
    (e : GeminiError) (hs : sessionId ≠ "") (hm : message ≠ "")
    (hg : env.gemini = fun _ => .error e) :
    (chat env st sessionId message).1 =
      if isQuotaError e then
        .jsonOk
          { success := true
            response := if 0 < (chatRelevantDocs env st sessionId message).length
              then quotaReplyDocs (chatRelevantDocs env st sessionId message).length
              else quotaReplyNoDocs
            documentsFound := (chatRelevantDocs env st sessionId message).length
            storage := chatStorageLabel env st sessionId message
            warning := some "API quota exceeded" }
      else .serverError "Failed to process chat message" e.message := by
  have hcond : (sessionId == "" || message == "") = false := by simp [hs, hm]
  unfold chat
  rw [hcond]
  simp only [Bool.false_eq_true, if_false, hg]
  by_cases hq : isQuotaError e = true
  · simp only [hq, if_true]
  · simp only [Bool.not_eq_true] at hq
    simp only [hq, Bool.false_eq_true, if_false]

set_option maxRecDepth 8192 in
/-- Closed witness for C3: a 429 model failure with no documents yields
the canned no-documents reply with the quota warning. -/
theorem chat_quota_degrades_w :
    (chat { envHealthy with gemini := fun _ => .error ⟨some 429, "boom"⟩ }
        st0 "s1" "hi").1 =
      .jsonOk
        { success := true
          response := quotaReplyNoDocs
          documentsFound := 0
          storage := "pinecone"
          warning := some "API quota exceeded" } := by
  have h := chat_quota_degrades { envHealthy with gemini := fun _ => .error ⟨some 429, "boom"⟩ }
    st0 "s1" "hi" ⟨some 429, "boom"⟩ (by decide) (by decide) rfl
  exact h.trans (by decide)

/-- C2, counterexample: with Pinecone healthy but its index empty and one
fallback document for the session, the vector search succeeds with zero
results, the served document comes from the fallback scan, yet the
response's `storage` field says `pinecone` — refuting the claim that the
field names the tier that actually served the documents. -/
theorem chat_storage_label_cex :
    (chat envHealthy stFb "s1" "hello").1 =
      .jsonOk { success := true, response := "ok", documentsFound := 1,
                storage := "pinecone", warning := none }
    ∧ (chatSearchRes envHealthy stFb "s1" "hello").documents = []
    ∧ chatRelevantDocs envHealthy stFb "s1" "hello" = [fallbackToChatDoc fbDoc1] := by
  refine ⟨by decide, by decide, by decide⟩

/-- C2, amended: the `storage` field of every 200 chat answer reflects
only whether the vector search call succeeded (`pinecone` iff it did,
`fallback` otherwise), even when a successful search returned zero
results and the documents were actually served by the fallback scan. -/
theorem chat_storage_reflects_search_success (env : Env) (st : ServerState)
    (sessionId message : String) (body : ChatBody)
    (hok : (chat env st sessionId message).1 = .jsonOk body) :
    body.storage =
      if (chatSearchRes env st sessionId message).success then "pinecone" else "fallback" := by
  unfold chat at hok
  by_cases hcond : (sessionId == "" || message == "") = true
  · rw [if_pos hcond] at hok
    simp at hok
  · simp only [Bool.not_eq_true] at hcond
    rw [hcond] at hok
    simp only [Bool.false_eq_true, if_false] at hok
    rcases hg : env.gemini (chatPrompt env st sessionId message) with e | t
    · simp only [hg] at hok
      by_cases hq : isQuotaError e = true
      · simp only [hq, if_true] at hok
        simp only [ChatResponse.jsonOk.injEq] at hok
        rw [← hok]
        rfl
      · simp only [Bool.not_eq_true] at hq
        simp only [hq, Bool.false_eq_true, if_false] at hok
        simp at hok
    · simp only [hg] at hok
      simp only [ChatResponse.jsonOk.injEq] at hok
      rw [← hok]
      rfl

/-- Closed witness for the amended C2: at the counterexample input the
200 body carries `storage = "pinecone"` because the search succeeded. -/
theorem chat_storage_reflects_search_success_w :
    ({ success := true, response := "ok", documentsFound := 1,
       storage := "pinecone", warning := none : ChatBody }).storage =
      if (chatSearchRes envHealthy stFb "s1" "hello").success then "pinecone"
      else "fallback" :=
  chat_storage_reflects_search_success envHealthy stFb "s1" "hello"
    ⟨true, "ok", 1, "pinecone", none⟩ (by decide)

/-- The session object aliases the fallback map exactly when the health
check failed. -/
theorem goc_fromFallback (env : Env) (st : ServerState) (sid : String) :
    (getOrCreateSession env st sid).fromFallback =
      !(healthCheck env st.pinecone).1.success := by
  unfold getOrCreateSession
  by_cases h : (healthCheck env st.pinecone).1.success <;> simp [h]

/-- With a healthy vector store, session resolution stores nothing. -/
theorem goc_sessions_healthy (env : Env) (st : ServerState) (sid : String)
    (hh : (healthCheck env st.pinecone).1.success = true) :
    (getOrCreateSession env st sid).state.fallbackSessions = st.fallbackSessions := by
  unfold getOrCreateSession
  simp [hh]

/-- With an unhealthy vector store, session resolution creates the
fallback entry lazily. -/
theorem goc_sessions_unhealthy (env : Env) (st : ServerState) (sid : String)
    (hh : (healthCheck env st.pinecone).1.success = false) :
    (getOrCreateSession env st sid).state.fallbackSessions =
      (if (lookupAssoc st.fallbackSessions sid).isSome then st.fallbackSessions
       else st.fallbackSessions ++ [(sid, freshSession sid env.now)]) := by
  unfold getOrCreateSession
  simp [hh]

/-- The Pinecone search step does not touch the fallback sessions map. -/
theorem chatState2_sessions (env : Env) (st : ServerState) (sid msg : String) :
    (chatStateAfterSearch env st sid msg).fallbackSessions =
      (getOrCreateSession env st sid).state.fallbackSessions := rfl

/-- Lookup steps over a cons cell like JS `Map.get`. -/
theorem lookupAssoc_cons {α : Type} (a : String × α) (m : List (String × α)) (k : String) :
    lookupAssoc (a :: m) k = if a.1 == k then some a.2 else lookupAssoc m k := by
  unfold lookupAssoc
  by_cases h : (a.1 == k) = true
  · simp [List.find?, h]
  · simp [List.find?, h]

/-- Pushing messages onto a stored session is visible through lookup. -/
theorem lookup_pushMessages (m : List (String × Session)) (sid : String)
    (msgs : List Message) :
    lookupAssoc (pushMessages m sid msgs) sid =
      (lookupAssoc m sid).map (fun s => { s with messages := s.messages ++ msgs }) := by
  induction m with
  | nil => rfl
  | cons a m ih =>
    have hmap : pushMessages (a :: m) sid msgs =
        (if a.1 == sid then (a.1, { a.2 with messages := a.2.messages ++ msgs }) else a)
          :: pushMessages m sid msgs := rfl
    rw [hmap]
    by_cases h : (a.1 == sid) = true
    · rw [if_pos h, lookupAssoc_cons, lookupAssoc_cons]
      simp [h]
    · rw [if_neg h, lookupAssoc_cons, lookupAssoc_cons]
      simp only [h, Bool.false_eq_true, if_false]
      exact ih

/-- Appending a fresh entry for an absent key makes lookup find it. -/
theorem lookup_append_single (m : List (String × Session)) (sid : String) (s : Session)
    (h : lookupAssoc m sid = none) :
    lookupAssoc (m ++ [(sid, s)]) sid = some s := by
  induction m with
  | nil => simp [lookupAssoc_cons, lookupAssoc]
  | cons a m ih =>
    rw [lookupAssoc_cons] at h
    rw [List.cons_append, lookupAssoc_cons]
    by_cases hh : (a.1 == sid) = true
    · rw [if_pos hh] at h
      exact absurd h (by simp)
    · rw [if_neg hh] at h
      rw [if_neg hh]
      exact ih h

/-- C10: with a healthy vector store each chat call resolves a transient
session, so the recorded turn is discarded — the fallback sessions map is
unchanged on every path; conversation history accumulates (old messages
plus the new user/assistant pair) only when the vector store is
unavailable, via the session object stored in the fallback map. -/
theorem chat_session_persistence (env : Env) (st : ServerState)
    (sessionId message text : String) :
    ((healthCheck env st.pinecone).1.success = true →
      (chat env st sessionId message).2.fallbackSessions = st.fallbackSessions)
    ∧ ((healthCheck env st.pinecone).1.success = false → sessionId ≠ "" → message ≠ "" →
      env.gemini = (fun _ => .ok text) →
      ((lookupAssoc (chat env st sessionId message).2.fallbackSessions sessionId).map
          (fun s => s.messages)) =
        some ((((lookupAssoc st.fallbackSessions sessionId).map (fun s => s.messages)).getD [])
          ++ [⟨"user", message, env.now⟩, ⟨"assistant", text, env.now⟩])) := by
  constructor
  · intro hh
    have hf : (getOrCreateSession env st sessionId).fromFallback = false := by
      rw [goc_fromFallback, hh]
      rfl
    have h2 : (chatStateAfterSearch env st sessionId message).fallbackSessions
        = st.fallbackSessions := by
      rw [chatState2_sessions]
      exact goc_sessions_healthy env st sessionId hh
    unfold chat
    by_cases hcond : (sessionId == "" || message == "") = true
    · rw [if_pos hcond]
    · simp only [Bool.not_eq_true] at hcond
      rw [hcond]
      simp only [Bool.false_eq_true, if_false]
      rcases hg : env.gemini (chatPrompt env st sessionId message) with e | t
      · simp only [hg]
        by_cases hq : isQuotaError e = true
        · simp only [hq, if_true]
          exact h2
        · simp only [Bool.not_eq_true] at hq
          simp only [hq, Bool.false_eq_true, if_false]
          exact h2
      · simp only [hg, hf, Bool.false_eq_true, if_false]
        exact h2
  · intro hh hs hm hg
    have hf : (getOrCreateSession env st sessionId).fromFallback = true := by
      rw [goc_fromFallback, hh]
      rfl
    have hcond : (sessionId == "" || message == "") = false := by simp [hs, hm]
    unfold chat
    rw [hcond]
    simp only [Bool.false_eq_true, if_false, hg]
    simp only [hf, if_true]
    rw [show (chatStateAfterSearch env st sessionId message).fallbackSessions =
        (getOrCreateSession env st sessionId).state.fallbackSessions from rfl]
    rw [goc_sessions_unhealthy env st sessionId hh]
    rw [lookup_pushMessages]
    by_cases hlk : (lookupAssoc st.fallbackSessions sessionId).isSome
    · rw [if_pos hlk]
      rcases hsome : lookupAssoc st.fallbackSessions sessionId with _ | s
      · rw [hsome] at hlk
        simp at hlk
      · simp
    · rw [if_neg hlk]
      have hnone : lookupAssoc st.fallbackSessions sessionId = none := by
        rcases h' : lookupAssoc st.fallbackSessions sessionId with _ | s
        · rfl
        · rw [h'] at hlk
          simp at hlk
      rw [lookup_append_single _ _ _ hnone, hnone]
      simp [freshSession]

/-- Closed witness for C10: with the healthy environment a chat call
leaves the (empty) fallback sessions map empty. -/
theorem chat_session_persistence_w :
    (chat envHealthy st0 "s1" "hi").2.fallbackSessions = st0.fallbackSessions :=
  (chat_session_persistence envHealthy st0 "s1" "hi" "ok").1 (by decide)

/-- The characters of a string are a prefix of the characters of any
right-extension of it. -/
theorem data_prefix_append (a b : String) : a.data <+: (a ++ b).data := by
  rw [String.data_append]
  exact ⟨_, rfl⟩

/-- The grounding needle (filename plus 2000-character excerpt) is a
prefix of the document's grounding entry when the filename is
non-empty. -/
theorem needle_prefix_docEntry (idx : Nat) (d : ChatDoc) (hfn : d.filename ≠ "") :
    ("Document: " ++ d.filename ++ "\n" ++ d.content.take 2000).data <+:
      (docEntry idx d).data := by
  have hne : ¬ ((d.filename == "") = true) := by simpa using hfn
  have he : docEntry idx d =
      ("Document: " ++ d.filename ++ "\n" ++ d.content.take 2000) ++ "...\n\n" := by
    unfold docEntry
    rw [if_neg hne]
  rw [he]
  exact data_prefix_append _ _

/-- Every document of the list contributes its grounding needle to the
accumulated context entries. -/
theorem contextEntries_contains :
    ∀ (docs : List ChatDoc) (d : ChatDoc), d ∈ docs → d.filename ≠ "" → ∀ idx : Nat,
      ("Document: " ++ d.filename ++ "\n" ++ d.content.take 2000).data <:+:
        (contextEntries idx docs).data := by
  intro docs
  induction docs with
  | nil =>
    intro d hd
    cases hd
  | cons x xs ih =>
    intro d hd hfn idx
    have hce : (contextEntries idx (x :: xs)).data =
        (docEntry idx x).data ++ (contextEntries (idx + 1) xs).data := by
      rw [show contextEntries idx (x :: xs) = docEntry idx x ++ contextEntries (idx + 1) xs
        from rfl, String.data_append]
    rw [hce]
    rcases List.mem_cons.mp hd with rfl | hmem
    · exact infix_appendR (isInfix_of_isPrefix (needle_prefix_docEntry idx d hfn))
    · exact infix_appendL (ih d hmem hfn (idx + 1))

set_option maxRecDepth 16384 in
/-- C7: a chat call that retrieves zero documents assembles the plain
general-knowledge prompt, which contains no `Document:` grounding section
(provided the user's own message does not contain that marker); a chat
call that retrieves documents assembles a prompt containing, for each
retrieved document, its filename followed by the first 2000 characters of
its content. -/
theorem chat_prompt_grounding (env : Env) (st : ServerState) (sessionId message : String) :
    (chatRelevantDocs env st sessionId message = [] →
      chatPrompt env st sessionId message = generalPrompt message
      ∧ (¬ strContains message "Document:" →
          ¬ strContains (chatPrompt env st sessionId message) "Document:"))
    ∧ (∀ d ∈ chatRelevantDocs env st sessionId message, d.filename ≠ "" →
        strContains (chatPrompt env st sessionId message)
          ("Document: " ++ d.filename ++ "\n" ++ d.content.take 2000)) := by
  constructor
  · intro hempty
    have hp : chatPrompt env st sessionId message = generalPrompt message := by
      simp [chatPrompt, hempty]
    refine ⟨hp, ?_⟩
    intro hmsg hcontra
    rw [hp] at hcontra
    unfold strContains at hcontra hmsg
    unfold generalPrompt at hcontra
    rw [String.data_append, String.data_append] at hcontra
    have hlen : ("Document:").data.length = 9 := rfl
    have f3 : ¬ (("Document:").data <:+: generalPromptPost.data) := by decide
    have f4 : ∀ k, k < 9 → ¬ (("Document:").data.drop k <+: generalPromptPost.data) := by
      decide
    rcases infix_split hcontra with h1 | h2 | ⟨k, hk0, hkt, hks, hkp⟩
    · have f1 : ¬ (("Document:").data <:+: generalPromptPre.data) := by decide
      have f2 : ∀ k, k < 9 → 0 < k →
          ¬ (("Document:").data.take k <:+ generalPromptPre.data) := by decide
      rcases infix_split h1 with g1 | g2 | ⟨j, hj0, hjt, hjs, hjp⟩
      · exact f1 g1
      · exact hmsg g2
      · rw [hlen] at hjt
        exact f2 j hjt hj0 hjs
    · exact f3 h2
    · rw [hlen] at hkt
      exact f4 k hkt hkp
  · intro d hd hfn
    have hne : chatRelevantDocs env st sessionId message ≠ [] := by
      intro h
      rw [h] at hd
      cases hd
    have hpos : 0 < (chatRelevantDocs env st sessionId message).length :=
      List.length_pos.mpr hne
    unfold strContains
    have hp : chatPrompt env st sessionId message =
        docPrompt (chatRelevantDocs env st sessionId message) message := by
      simp [chatPrompt, hpos]
    rw [hp]
    have hPrompt : (docPrompt (chatRelevantDocs env st sessionId message) message).data =
        ((((groundingContext (chatRelevantDocs env st sessionId message)).data
          ++ ("\n\nUser question: ").data) ++ message.data) ++ docPromptTail.data) := by
      unfold docPrompt
      rw [String.data_append, String.data_append, String.data_append]
    rw [hPrompt]
    apply infix_appendR
    apply infix_appendR
    apply infix_appendR
    have hGC : (groundingContext (chatRelevantDocs env st sessionId message)).data =
        ("Based on the uploaded documents:\n\n").data
          ++ (contextEntries 0 (chatRelevantDocs env st sessionId message)).data := by
      unfold groundingContext
      rw [String.data_append]
    rw [hGC]
    exact infix_appendL (contextEntries_contains _ d hd hfn 0)

set_option maxRecDepth 16384 in
/-- Closed witness for C7: at the fallback-document input the assembled
prompt contains the document's filename and excerpt. -/
theorem chat_prompt_grounding_w :
    strContains (chatPrompt envHealthy stFb "s1" "hello")
      ("Document: " ++ (fallbackToChatDoc fbDoc1).filename ++ "\n"
        ++ (fallbackToChatDoc fbDoc1).content.take 2000) :=
  (chat_prompt_grounding envHealthy stFb "s1" "hello").2 (fallbackToChatDoc fbDoc1)
    (by decide) (by decide)

end CementChat
